import Mathlib

/-!
Shallow embedding of juniper's GraphQL adapters for exact-size arrays
(`src/juniper/src/types/array.rs`) and for `Box` (`src/juniper/src/types/box.rs`),
together with proofs about the decode/encode behaviour of those adapters.

Modelling choices:
* `graphql::InputValue<SV>` becomes the inductive `InputValue SV`.  The `Spanning`
  source-location annotations carried by `List`/`Object` payloads are dropped,
  because the decode code under verification only ever reads `i.item` (array.rs
  line 154) and `to_input_value` attaches no meaningful locations.
* The element type's converter `T::try_from_input_value` is an explicit function
  parameter `conv : InputValue SV → Except E T`, and its `to_input_value` an
  explicit `toInput : T → InputValue SV`.
* The array `[T; N]` is represented by a `List T` together with length facts;
  the staging buffer `PartiallyInitializedArray` keeps all three source fields,
  with `arr` holding exactly the initialized prefix `arr[0..init_len]`.
* The decode is instrumented: `tryFromInputValueTraced` returns, besides the
  `Result`, the number of invocations of `conv` and the list of elements that
  the `PartiallyInitializedArray::drop` implementation releases (in order).
  These correspond to the observable effects of the Rust code: each call site of
  `T::try_from_input_value` ticks the counter, and the `Drop` impl (array.rs
  lines 99-115) releases `arr[0..init_len]` unless `no_drop` was set.
-/

namespace Juniper

/-- Model of `graphql::InputValue<SV>`: the dynamically-typed value arriving at a type
boundary. Variants follow the source enum (Null, Scalar, Enum, Variable, List,
Object); source-location annotations on list items and object fields are
elided, as only the payload item is ever read by the code modelled here. -/
inductive InputValue (SV : Type) where
  | null
  | scalar (s : SV)
  | enum (n : String)
  | var (n : String)
  | list (items : List (InputValue SV))
  | object (fields : List (String × InputValue SV))

/-- A "bare" input value: neither `List` nor `Null`; such values hit the
catch-all `other` arm of `try_from_input_value` (array.rs lines 184-206). -/
def InputValue.isBare {SV : Type} : InputValue SV → Bool
  | .null => false
  | .list _ => false
  | _ => true

/-- Model of `TryFromInputValueError<E>` (array.rs lines 263-283): possible errors of
converting a `graphql::InputValue` into an exact-size array. -/
inductive TryFromInputValueError (E : Type) where
  | IsNull
  | WrongCount (actual : Nat) (expected : Nat)
  | Item (e : E)
  deriving DecidableEq

/-- The staging buffer of the decode loop (array.rs lines 93-97): `arr` models
the initialized prefix `arr[0..init_len]` of the `[MaybeUninit<T>; N]` buffer
(uninitialized slots carry no data and are not represented), `init_len` is the
tracked live count, and `no_drop` the flag consulted by the `Drop` impl. -/
structure PartiallyInitializedArray (T : Type) where
  arr : List T
  init_len : Nat
  no_drop : Bool
  deriving DecidableEq

/-- The elements released by `PartiallyInitializedArray::drop` (array.rs lines
99-115): nothing when `no_drop` is set, otherwise exactly `arr[0..init_len]`. -/
def PartiallyInitializedArray.dropReleases {T : Type} (p : PartiallyInitializedArray T) : List T :=
  if p.no_drop then [] else p.arr.take p.init_len

/-- The live-count invariant of the staging buffer: the tracked `init_len`
equals the number of successfully materialized slots. -/
def PartiallyInitializedArray.liveCountOk {T : Type} (p : PartiallyInitializedArray T) : Prop :=
  p.init_len = p.arr.length

/-- The staging loop of `try_from_input_value` (array.rs lines 154-164): walk
the input items in order; on a successful conversion materialize the value into
the next slot and bump `init_len`; on a failing conversion stop, reporting the
error together with the buffer state at abandonment. The final `Nat` counts the
invocations of the element converter `conv`; on success `no_drop` is set
(array.rs line 168) before the buffer is handed back. -/
def stagingLoopAux {SV T E : Type} (conv : InputValue SV → Except E T) :
    List (InputValue SV) → PartiallyInitializedArray T → Nat →
    Except (E × PartiallyInitializedArray T) (PartiallyInitializedArray T) × Nat
  | [], out, n => (.ok { out with no_drop := true }, n)
  | i :: rest, out, n =>
    match conv i with
    | .error e => (.error (e, out), n + 1)
    | .ok t =>
      stagingLoopAux conv rest
        { out with arr := out.arr ++ [t], init_len := out.init_len + 1 } (n + 1)

/-- The buffer state an outcome of the staging loop leaves behind: the finished
buffer on success, the abandoned buffer on failure. -/
def loopState {T E : Type}
    (r : Except (E × PartiallyInitializedArray T) (PartiallyInitializedArray T) × Nat) :
    PartiallyInitializedArray T :=
  match r with
  | (.ok p, _) => p
  | (.error (_, p), _) => p

/-- Model of `<[T; N] as resolve::InputValue>::try_from_input_value` (array.rs
lines 92-208), instrumented: the first component is the `Result`, the second the
number of invocations of the element converter `conv`, the third the list of
elements released by `PartiallyInitializedArray::drop` when the decode call
returns (empty whenever no staging buffer was dropped with `no_drop` unset).
The returned `List T` stands for the decoded `[T; N]`; on the success paths it
has length `N` (the transmute of the fully initialized buffer, the empty array
for `N = 0`, or the singleton for a bare value with `N = 1`). -/
def tryFromInputValueTraced {SV T E : Type} (N : Nat) (conv : InputValue SV → Except E T) :
    InputValue SV → Except (TryFromInputValueError E) (List T) × Nat × List T
  | .list ls =>
    if ls.length ≠ N then
      (.error (.WrongCount ls.length N), 0, [])
    else if N = 0 then
      (.ok [], 0, [])
    else
      match stagingLoopAux conv ls ⟨[], 0, false⟩ 0 with
      | (.ok out, n) => (.ok out.arr, n, out.dropReleases)
      | (.error (e, out), n) => (.error (.Item e), n, out.dropReleases)
  | .null => (.error .IsNull, 0, [])
  | other =>
    match conv other with
    | .error e => (.error (.Item e), 1, [])
    | .ok t =>
      if N = 1 then (.ok [t], 1, []) else (.error (.WrongCount 1 N), 1, [])

/-- The plain result of the array decode (the `Result` the caller sees). -/
def tryFromInputValue {SV T E : Type} (N : Nat) (conv : InputValue SV → Except E T)
    (v : InputValue SV) : Except (TryFromInputValueError E) (List T) :=
  (tryFromInputValueTraced N conv v).1

/-- Number of element-converter invocations performed by a decode call. -/
def decodeInvocations {SV T E : Type} (N : Nat) (conv : InputValue SV → Except E T)
    (v : InputValue SV) : Nat :=
  (tryFromInputValueTraced N conv v).2.1

/-- Elements released by the staging buffer's `Drop` impl during a decode call. -/
def decodeReleased {SV T E : Type} (N : Nat) (conv : InputValue SV → Except E T)
    (v : InputValue SV) : List T :=
  (tryFromInputValueTraced N conv v).2.2

/-- Model of `<[T; N] as resolve::ToInputValue>::to_input_value` (array.rs
lines 74-82):
serialize the `N` elements in order into a `List` input value. -/
def toInputValue {SV T : Type} (toInput : T → InputValue SV) (xs : List T) : InputValue SV :=
  .list (xs.map toInput)

/-- The fixed textual head of the user-facing array-decode error messages
(`ERROR_PREFIX`, array.rs line 290). -/
def fieldErrorHead : String := "Failed to convert into exact-size array"

/-- Model of `TryFromInputValueError::into_field_error` (array.rs lines
285-301), with the field error modelled by its message string and the
element error's own `into_field_error` passed as `itemErr`. -/
def intoFieldError {E : Type} (itemErr : E → String) : TryFromInputValueError E → String
  | .IsNull => fieldErrorHead ++ ": Value cannot be `null`"
  | .WrongCount actual expected =>
    fieldErrorHead ++ ": wrong elements count: " ++ toString actual
      ++ " instead of " ++ toString expected
  | .Item s => itemErr s

/-- A single-owner indirection wrapper: `Box<T>`; constructing one models a
fresh allocation taking ownership of the wrapped value. -/
structure Box (T : Type) where
  val : T
  deriving DecidableEq

/-- Model of `Box::to_input_value` (box.rs lines 152-160):
dereference and delegate to the inner value. -/
def Box.toInputValue {SV T : Type} (toInput : T → InputValue SV) (b : Box T) : InputValue SV :=
  toInput b.val

/-- Model of the `Box<T>` decode (box.rs lines 162-194): `resolve::InputValue for Box<T>`
delegates to `resolve::InputValueAs<Box<T>> for T`, whose
`try_from_input_value` is `T::try_from_input_value(v).map(Box::new)`. -/
def Box.tryFromInputValue {SV T E : Type} (conv : InputValue SV → Except E T)
    (v : InputValue SV) : Except E (Box T) :=
  (conv v).map Box.mk

/-- Model of the `Box<T>` implicit-null decode (box.rs lines 174-176 and
191-193):
`T::try_from_implicit_null().map(Box::new)`, with the inner type's
`try_from_implicit_null()` result passed as `inh`. -/
def Box.tryFromImplicitNull {T E : Type} (inh : Except E T) : Except E (Box T) :=
  inh.map Box.mk

/-- Concrete element converter used to exercise the theorems: decodes a scalar
`Nat` input value and rejects everything else. -/
def natConv : InputValue Nat → Except String Nat
  | .scalar n => .ok n
  | _ => .error "not a scalar"


theorem stagingLoopAux_all_ok {SV T E : Type} (conv : InputValue SV → Except E T)
    {ls : List (InputValue SV)} {ts : List T}
    (h : List.Forall₂ (fun i t => conv i = .ok t) ls ts)
    (out : PartiallyInitializedArray T) (n : Nat) :
    stagingLoopAux conv ls out n =
      (.ok ⟨out.arr ++ ts, out.init_len + ts.length, true⟩, n + ts.length) := by
  induction h generalizing out n with
  | nil =>
    obtain ⟨a, l, d⟩ := out
    simp [stagingLoopAux]
  | cons hc _ ih =>
    obtain ⟨a, l, d⟩ := out
    simp only [stagingLoopAux, hc]
    rw [ih]
    simp [List.append_assoc]
    all_goals omega

theorem stagingLoopAux_first_fail {SV T E : Type} (conv : InputValue SV → Except E T)
    {pre : List (InputValue SV)} {ts : List T}
    (h : List.Forall₂ (fun i t => conv i = .ok t) pre ts)
    {x : InputValue SV} {e : E} (hx : conv x = .error e)
    (rest : List (InputValue SV)) (out : PartiallyInitializedArray T) (n : Nat) :
    stagingLoopAux conv (pre ++ x :: rest) out n =
      (.error (e, ⟨out.arr ++ ts, out.init_len + ts.length, out.no_drop⟩), n + ts.length + 1) := by
  induction h generalizing out n with
  | nil =>
    obtain ⟨a, l, d⟩ := out
    simp [stagingLoopAux, hx]
  | cons hc _ ih =>
    obtain ⟨a, l, d⟩ := out
    simp only [List.cons_append, stagingLoopAux, hc, List.append_eq]
    rw [ih]
    simp [List.append_assoc]
    all_goals omega

theorem stagingLoopAux_liveCount {SV T E : Type} (conv : InputValue SV → Except E T)
    (l : List (InputValue SV)) (out : PartiallyInitializedArray T) (n : Nat)
    (h : out.liveCountOk) :
    (loopState (stagingLoopAux conv l out n)).liveCountOk := by
  induction l generalizing out n with
  | nil =>
    simpa [stagingLoopAux, loopState, PartiallyInitializedArray.liveCountOk] using h
  | cons i rest ih =>
    cases hc : conv i with
    | error e =>
      simpa [stagingLoopAux, loopState, hc, PartiallyInitializedArray.liveCountOk] using h
    | ok t =>
      simp only [stagingLoopAux, hc]
      refine ih _ _ ?_
      simp [PartiallyInitializedArray.liveCountOk] at h ⊢
      omega

theorem dropReleases_of_liveCount {T : Type} (p : PartiallyInitializedArray T)
    (h : p.liveCountOk) (hd : p.no_drop = false) : p.dropReleases = p.arr := by
  simp [PartiallyInitializedArray.liveCountOk] at h
  simp [PartiallyInitializedArray.dropReleases, hd, h]


theorem bareTraced {SV T E : Type} (N : Nat) (conv : InputValue SV → Except E T)
    (v : InputValue SV) (hbare : v.isBare = true) :
    tryFromInputValueTraced N conv v =
      match conv v with
      | .error e => (.error (.Item e), 1, [])
      | .ok t => if N = 1 then (.ok [t], 1, []) else (.error (.WrongCount 1 N), 1, []) := by
  cases v <;> first | rfl | simp [InputValue.isBare] at hbare

/-- C1: if the k-th element of an N-length input list fails to convert, decode
fails with Item carrying that error, the converter runs exactly k+1 times, and
the staging buffer's drop releases exactly the k already-converted elements,
once each; the tracked live count always equals the number of materialized
slots, and abandonment releases exactly that prefix. -/
theorem array_item_error_abandons_prefix {SV T E : Type} {N : Nat}
    (conv : InputValue SV → Except E T)
    (pre rest : List (InputValue SV)) (x : InputValue SV) (ts : List T) (e : E)
    (hpre : List.Forall₂ (fun i t => conv i = .ok t) pre ts)
    (hx : conv x = .error e)
    (hN : pre.length + 1 + rest.length = N) :
    tryFromInputValue N conv (.list (pre ++ x :: rest)) = .error (.Item e) ∧
    decodeInvocations N conv (.list (pre ++ x :: rest)) = pre.length + 1 ∧
    decodeReleased N conv (.list (pre ++ x :: rest)) = ts ∧
    ts.length = pre.length ∧
    (∀ (l : List (InputValue SV)) (out : PartiallyInitializedArray T) (n : Nat),
      out.liveCountOk → (loopState (stagingLoopAux conv l out n)).liveCountOk) ∧
    (∀ p : PartiallyInitializedArray T, p.liveCountOk → p.no_drop = false →
      p.dropReleases = p.arr) := by
  have hts : ts.length = pre.length := hpre.length_eq.symm
  have hlen : (pre ++ x :: rest).length = N := by simp; omega
  have h0 : N ≠ 0 := by omega
  have hstage := stagingLoopAux_first_fail conv hpre hx rest ⟨[], 0, false⟩ 0
  refine ⟨?_, ?_, ?_, hts, fun l out n h => stagingLoopAux_liveCount conv l out n h,
    fun p h hd => dropReleases_of_liveCount p h hd⟩ <;>
    simp [tryFromInputValue, decodeInvocations, decodeReleased, tryFromInputValueTraced,
      hlen, h0, hstage, PartiallyInitializedArray.dropReleases, hts]

/-- C2: an N-length list all of whose elements convert decodes successfully to
the container of the converted elements, pointwise in order (including N = 0). -/
theorem array_decode_all_success {SV T E : Type} {N : Nat}
    (conv : InputValue SV → Except E T) (ls : List (InputValue SV)) (ts : List T)
    (hlen : ls.length = N)
    (hall : List.Forall₂ (fun i t => conv i = .ok t) ls ts) :
    tryFromInputValue N conv (.list ls) = .ok ts ∧
    ts.length = N ∧
    ∀ (i : Nat) (h1 : i < ls.length) (h2 : i < ts.length),
      conv (ls.get ⟨i, h1⟩) = .ok (ts.get ⟨i, h2⟩) := by
  have hts : ts.length = N := by rw [← hlen, hall.length_eq]
  refine ⟨?_, hts, fun i h1 h2 => (List.forall₂_iff_get.mp hall).2 i h1 h2⟩
  by_cases h0 : N = 0
  · have hls : ls = [] := by subst h0; exact List.eq_nil_of_length_eq_zero hlen
    have hts0 : ts = [] := by subst h0; exact List.eq_nil_of_length_eq_zero hts
    subst hls hts0
    simp [tryFromInputValue, tryFromInputValueTraced, h0, ← hlen]
  · have hstage := stagingLoopAux_all_ok conv hall ⟨[], 0, false⟩ 0
    simp [tryFromInputValue, tryFromInputValueTraced, hlen, h0, hstage]

/-- C3: a list of length L ≠ N fails with WrongCount(L, N) and the element
converter is never invoked, with nothing constructed or released. -/
theorem array_decode_wrong_count {SV T E : Type} (N : Nat)
    (conv : InputValue SV → Except E T) (ls : List (InputValue SV))
    (h : ls.length ≠ N) :
    tryFromInputValue N conv (.list ls) = .error (.WrongCount ls.length N) ∧
    decodeInvocations N conv (.list ls) = 0 ∧
    decodeReleased N conv (.list ls) = [] := by
  refine ⟨?_, ?_, ?_⟩ <;>
    simp [tryFromInputValue, decodeInvocations, decodeReleased, tryFromInputValueTraced, h]

/-- C4: decoding Null fails with IsNull for every N (the converter is never
invoked). -/
theorem array_decode_null_is_null {SV T E : Type} (N : Nat)
    (conv : InputValue SV → Except E T) :
    tryFromInputValue N conv (.null : InputValue SV) = .error .IsNull ∧
    decodeInvocations N conv (.null : InputValue SV) = 0 :=
  ⟨rfl, rfl⟩

/-- C5: a bare (non-List, non-Null) value decodes for N = 1 exactly as the
sole element of a length-1 list would (identical result and trace); for N ≠ 1,
when its conversion succeeds, it fails with WrongCount(1, N). -/
theorem array_decode_bare_value {SV T E : Type}
    (conv : InputValue SV → Except E T) (v : InputValue SV)
    (hbare : v.isBare = true) :
    tryFromInputValueTraced 1 conv v = tryFromInputValueTraced 1 conv (.list [v]) ∧
    ∀ (N : Nat) (t : T), N ≠ 1 → conv v = .ok t →
      tryFromInputValue N conv v = .error (.WrongCount 1 N) := by
  constructor
  · rw [bareTraced 1 conv v hbare]
    cases hc : conv v <;>
      simp [tryFromInputValueTraced, stagingLoopAux, hc, PartiallyInitializedArray.dropReleases]
  · intro N t hN hc
    simp [tryFromInputValue, bareTraced N conv v hbare, hc, hN]


/-- C6 counterexample: decoding the bare scalar 5 into a 2-element array fails
with WrongCount(1, 2), yet the element converter has been invoked once, not
zero times — refuting the claim that every IsNull/WrongCount failure happens
before any element conversion. -/
theorem shape_error_after_conversion_cex :
    tryFromInputValue 2 natConv (.scalar 5) = .error (.WrongCount 1 2) ∧
    decodeInvocations 2 natConv (.scalar 5) ≠ 0 :=
  ⟨rfl, by decide⟩

/-- C6 (amended): IsNull and WrongCount failures arising from List or Null
inputs occur with zero converter invocations and no partial construction; a
WrongCount failure on a bare (non-List, non-Null) input occurs only after
exactly one converter invocation, still with no partial construction. -/
theorem shape_errors_detection_points {SV T E : Type} (N : Nat)
    (conv : InputValue SV → Except E T) :
    (∀ ls : List (InputValue SV), ls.length ≠ N →
      tryFromInputValueTraced N conv (.list ls) = (.error (.WrongCount ls.length N), 0, [])) ∧
    tryFromInputValueTraced N conv (.null : InputValue SV) = (.error .IsNull, 0, []) ∧
    (∀ v : InputValue SV, v.isBare = true →
      ∀ a b : Nat, (tryFromInputValueTraced N conv v).1 = .error (.WrongCount a b) →
        (tryFromInputValueTraced N conv v).2.1 = 1 ∧ (tryFromInputValueTraced N conv v).2.2 = []) := by
  refine ⟨fun ls h => by simp [tryFromInputValueTraced, h], rfl, fun v hbare a b h => ?_⟩
  rw [bareTraced N conv v hbare] at h ⊢
  cases hc : conv v with
  | error e => simp [hc] at h
  | ok t =>
    by_cases h1 : N = 1 <;> simp [hc, h1] at h ⊢

/-- C7: for a bare (non-List, non-Null) input and N ≠ 1, the element converter
is invoked (exactly once) on the bare value first: a failing conversion yields
Item with the converter's error, and WrongCount(1, N) is produced only when
the conversion succeeds. -/
theorem bare_value_converted_before_wrong_count {SV T E : Type} (N : Nat)
    (conv : InputValue SV → Except E T) (v : InputValue SV)
    (hbare : v.isBare = true) (hN : N ≠ 1) :
    (∀ e : E, conv v = .error e → tryFromInputValue N conv v = .error (.Item e)) ∧
    (∀ t : T, conv v = .ok t → tryFromInputValue N conv v = .error (.WrongCount 1 N)) ∧
    decodeInvocations N conv v = 1 := by
  refine ⟨fun e hc => ?_, fun t hc => ?_, ?_⟩
  · simp [tryFromInputValue, bareTraced N conv v hbare, hc]
  · simp [tryFromInputValue, bareTraced N conv v hbare, hc, hN]
  · unfold decodeInvocations
    rw [bareTraced N conv v hbare]
    cases hc : conv v with
    | error e => rfl
    | ok t => by_cases h1 : N = 1 <;> simp [h1]

/-- C8 counterexample: the user-facing IsNull message is not the fixed prefix
followed by ": Value cannot be null" — the code puts backticks around null. -/
theorem isnull_message_cex :
    intoFieldError (fun s => s) (.IsNull : TryFromInputValueError String) ≠
      fieldErrorHead ++ ": Value cannot be null" := by
  decide

/-- C8 (amended): the user-facing messages are the fixed prefix followed by
": Value cannot be `null`" for IsNull (null in backticks), the prefix followed
by ": wrong elements count: {actual} instead of {expected}" for WrongCount,
and the element error's own field error, unmodified, for Item. -/
theorem into_field_error_messages {E : Type} (itemErr : E → String)
    (actual expected : Nat) (e : E) :
    intoFieldError itemErr (.IsNull : TryFromInputValueError E) =
      fieldErrorHead ++ ": Value cannot be `null`" ∧
    intoFieldError itemErr (.WrongCount actual expected) =
      fieldErrorHead ++ ": wrong elements count: " ++ toString actual
        ++ " instead of " ++ toString expected ∧
    intoFieldError itemErr (.Item e) = itemErr e :=
  ⟨rfl, rfl, rfl⟩

/-- C9: round trip — encoding an exact-length array with to_input_value and
decoding the result succeeds and reproduces the original array, whenever the
element converter round-trips the element encoding. -/
theorem array_round_trip {SV T E : Type} {N : Nat}
    (conv : InputValue SV → Except E T) (toInput : T → InputValue SV)
    (hrt : ∀ t : T, conv (toInput t) = .ok t)
    (xs : List T) (hN : xs.length = N) :
    tryFromInputValue N conv (toInputValue toInput xs) = .ok xs := by
  have hall : List.Forall₂ (fun i t => conv i = .ok t) (xs.map toInput) xs :=
    List.forall₂_map_left_iff.mpr (List.forall₂_same.mpr fun a _ => hrt a)
  by_cases h0 : N = 0
  · have hxs : xs = [] := by subst h0; exact List.eq_nil_of_length_eq_zero hN
    subst hxs
    simp [toInputValue, tryFromInputValue, tryFromInputValueTraced, h0]
  · have hstage := stagingLoopAux_all_ok conv hall ⟨[], 0, false⟩ 0
    have hlen : (xs.map toInput).length = N := by simpa using hN
    simp [toInputValue, tryFromInputValue, tryFromInputValueTraced, hlen, h0, hstage]

/-- C10: the Box adapter is transparent — to_input_value on a Box equals the
inner value's to_input_value, and decoding (try_from_input_value as well as
try_from_implicit_null) equals decoding through the inner type and wrapping
the result in a fresh Box, with the inner error propagated unchanged. -/
theorem box_transparent_delegation {SV T E : Type}
    (toInput : T → InputValue SV) (conv : InputValue SV → Except E T)
    (inh : Except E T) (x : T) (v : InputValue SV) :
    Box.toInputValue toInput ⟨x⟩ = toInput x ∧
    (∀ t : T, conv v = .ok t → Box.tryFromInputValue conv v = .ok ⟨t⟩) ∧
    (∀ e : E, conv v = .error e → Box.tryFromInputValue conv v = .error e) ∧
    (∀ t : T, inh = .ok t → Box.tryFromImplicitNull inh = .ok ⟨t⟩) ∧
    (∀ e : E, inh = .error e → Box.tryFromImplicitNull inh = .error e) := by
  refine ⟨rfl, fun t h => ?_, fun e h => ?_, fun t h => ?_, fun e h => ?_⟩ <;>
    simp [Box.tryFromInputValue, Box.tryFromImplicitNull, h, Except.map]


/-- C1 witness: decoding [1, 2, "x"] into a 3-array fails at index 2 with the
converter's error, after 3 invocations, releasing exactly [1, 2]. -/
theorem array_item_error_abandons_prefix_witness :
    tryFromInputValue 3 natConv (.list [.scalar 1, .scalar 2, .enum "x"]) =
      .error (.Item "not a scalar") ∧
    decodeInvocations 3 natConv (.list [.scalar 1, .scalar 2, .enum "x"]) = 3 ∧
    decodeReleased 3 natConv (.list [.scalar 1, .scalar 2, .enum "x"]) = [1, 2] ∧
    ([1, 2] : List Nat).length = 2 ∧
    (∀ (l : List (InputValue Nat)) (out : PartiallyInitializedArray Nat) (n : Nat),
      out.liveCountOk → (loopState (stagingLoopAux natConv l out n)).liveCountOk) ∧
    (∀ p : PartiallyInitializedArray Nat, p.liveCountOk → p.no_drop = false →
      p.dropReleases = p.arr) :=
  array_item_error_abandons_prefix natConv [.scalar 1, .scalar 2] [] (.enum "x") [1, 2]
    "not a scalar" (List.Forall₂.cons rfl (List.Forall₂.cons rfl List.Forall₂.nil)) rfl rfl

/-- C2 witness: decoding [4, 5] into a 2-array succeeds pointwise. -/
theorem array_decode_all_success_witness :
    tryFromInputValue 2 natConv (.list [.scalar 4, .scalar 5]) = .ok [4, 5] ∧
    ([4, 5] : List Nat).length = 2 ∧
    (∀ (i : Nat) (h1 : i < ([(.scalar 4 : InputValue Nat), .scalar 5]).length)
      (h2 : i < ([4, 5] : List Nat).length),
      natConv (([(.scalar 4 : InputValue Nat), .scalar 5]).get ⟨i, h1⟩) =
        .ok (([4, 5] : List Nat).get ⟨i, h2⟩)) :=
  array_decode_all_success natConv [.scalar 4, .scalar 5] [4, 5] rfl
    (List.Forall₂.cons rfl (List.Forall₂.cons rfl List.Forall₂.nil))

/-- C3 witness: a 1-element list against a 2-array fails with WrongCount(1, 2)
and zero converter invocations. -/
theorem array_decode_wrong_count_witness :
    tryFromInputValue 2 natConv (.list [.scalar 5]) = .error (.WrongCount 1 2) ∧
    decodeInvocations 2 natConv (.list [.scalar 5]) = 0 ∧
    decodeReleased 2 natConv (.list [.scalar 5]) = [] :=
  array_decode_wrong_count 2 natConv [.scalar 5] (by decide)

/-- C5 witness: the bare scalar 7 decodes against N = 1 exactly as the list
[7] does, and fails with WrongCount(1, N) against any other N. -/
theorem array_decode_bare_value_witness :
    tryFromInputValueTraced 1 natConv (.scalar 7) =
      tryFromInputValueTraced 1 natConv (.list [.scalar 7]) ∧
    ∀ (N : Nat) (t : Nat), N ≠ 1 → natConv (.scalar 7) = .ok t →
      tryFromInputValue N natConv (.scalar 7) = .error (.WrongCount 1 N) :=
  array_decode_bare_value natConv (.scalar 7) rfl

/-- C6 witness: the amended detection-point statement at N = 2 with the
concrete Nat converter. -/
theorem shape_errors_detection_points_witness :
    (∀ ls : List (InputValue Nat), ls.length ≠ 2 →
      tryFromInputValueTraced 2 natConv (.list ls) = (.error (.WrongCount ls.length 2), 0, [])) ∧
    tryFromInputValueTraced 2 natConv (.null : InputValue Nat) = (.error .IsNull, 0, []) ∧
    (∀ v : InputValue Nat, v.isBare = true →
      ∀ a b : Nat, (tryFromInputValueTraced 2 natConv v).1 = .error (.WrongCount a b) →
        (tryFromInputValueTraced 2 natConv v).2.1 = 1 ∧
          (tryFromInputValueTraced 2 natConv v).2.2 = []) :=
  shape_errors_detection_points 2 natConv

/-- C7 witness: the bare scalar 7 against N = 2 — conversion happens first,
and WrongCount(1, 2) is produced since it succeeds. -/
theorem bare_value_converted_before_wrong_count_witness :
    (∀ e : String, natConv (.scalar 7) = .error e →
      tryFromInputValue 2 natConv (.scalar 7) = .error (.Item e)) ∧
    (∀ t : Nat, natConv (.scalar 7) = .ok t →
      tryFromInputValue 2 natConv (.scalar 7) = .error (.WrongCount 1 2)) ∧
    decodeInvocations 2 natConv (.scalar 7) = 1 :=
  bare_value_converted_before_wrong_count 2 natConv (.scalar 7) rfl (by decide)

/-- C9 witness: encoding [3, 4] and decoding it back reproduces [3, 4]. -/
theorem array_round_trip_witness :
    tryFromInputValue 2 natConv (toInputValue InputValue.scalar [3, 4]) = .ok [3, 4] :=
  array_round_trip natConv InputValue.scalar (fun _ => rfl) [3, 4] rfl

/-- C10 witness: Box delegation at concrete values. -/
theorem box_transparent_delegation_witness :
    Box.toInputValue InputValue.scalar ⟨(5 : Nat)⟩ = InputValue.scalar 5 ∧
    (∀ t : Nat, natConv (.scalar 9) = .ok t →
      Box.tryFromInputValue natConv (.scalar 9) = .ok ⟨t⟩) ∧
    (∀ e : String, natConv (.scalar 9) = .error e →
      Box.tryFromInputValue natConv (.scalar 9) = .error e) ∧
    (∀ t : Nat, (.ok 0 : Except String Nat) = .ok t →
      Box.tryFromImplicitNull (.ok 0 : Except String Nat) = .ok ⟨t⟩) ∧
    (∀ e : String, (.ok 0 : Except String Nat) = .error e →
      Box.tryFromImplicitNull (.ok 0 : Except String Nat) = .error e) :=
  box_transparent_delegation InputValue.scalar natConv (.ok 0) 5 (.scalar 9)

end Juniper
